import Mathlib

/-!
Verification development for the instant-music game backend
(`backend/apps/games`): a shallow embedding in Lean 4 of the room/round
state machine, answer scoring, serializers and the lyrics
fill-in-the-blank question builder, with theorems settling the frozen
claims about the specification.

Conventions of the embedding:
* Python strings are `List Char` (`Str`); Python floats that only ever
  hold ratios of small integers (similarities, accuracy factors,
  response times) are `ℚ`; Python `int()` truncation toward zero is
  `pyTrunc`.
* Database timestamps are abstract ticks (`ℕ`), passed explicitly where
  the code calls `timezone.now()`.
* `random.choice` / `random.shuffle` are oracle parameters (`pick`,
  `shuffle`); theorems quantify over all oracles that return a member /
  a permutation, and concrete runs instantiate them.
* `json.loads` of an answer payload is an oracle `parse` returning the
  artist/title pair of a JSON object payload, `none` when the payload is
  not an object (the code then falls back to plain fuzzy matching).
-/

/-- Python strings are modelled as lists of characters. -/
abbrev Str := List Char

/-- The apostrophe character (written via its code point). -/
def apos : Char := Char.ofNat 39

/-- Whitespace for Python `str.strip` / `str.split()` / regex `\s`. -/
def isPySpace (c : Char) : Bool :=
  c = ' ' ∨ c = '\t' ∨ c = '\n' ∨ c = '\x0d' ∨ c = '\x0b' ∨ c = '\x0c'

/-- ASCII letter test. -/
def isAsciiAlpha (c : Char) : Bool :=
  ('a' ≤ c ∧ c ≤ 'z') ∨ ('A' ≤ c ∧ c ≤ 'Z')

/-- Characters matched by the regex class `a-zA-ZÀ-ÿ` used throughout
`services.py` and `lyrics_service.py` (`À-ÿ` is the code-point range
U+00C0–U+00FF, exactly as in a Python character class). -/
def isWordLetter (c : Char) : Bool :=
  isAsciiAlpha c ∨ (0xC0 ≤ c.toNat ∧ c.toNat ≤ 0xFF)

/-- Python `str.lower` restricted to the characters the games code can
meet before its regex filters drop everything else: ASCII letters and
the Latin-1 range (U+00C0–U+00DE map down by 32, except ×). -/
def pyLower (c : Char) : Char :=
  if 'A' ≤ c ∧ c ≤ 'Z' then Char.ofNat (c.toNat + 32)
  else if 0xC0 ≤ c.toNat ∧ c.toNat ≤ 0xDE ∧ c.toNat ≠ 0xD7 then
    Char.ofNat (c.toNat + 32)
  else c

/-- Lowercase a whole string, as Python `str.lower()`. -/
def lowerStr (s : Str) : Str := s.map pyLower

/-- Python `str.strip()`: drop leading and trailing whitespace. -/
def pyStrip (s : Str) : Str :=
  (s.dropWhile isPySpace).reverse.dropWhile isPySpace |>.reverse

/-- Python `int()` truncation toward zero on a rational. -/
def pyTrunc (q : ℚ) : ℤ := if 0 ≤ q then ⌊q⌋ else ⌈q⌉

/-- Digit run to a natural number (base 10). -/
def digitsToNat (ds : List Char) : ℕ :=
  ds.foldl (fun acc d => acc * 10 + (d.toNat - '0'.toNat)) 0

/-- Python `int(str)` on the strings the year-guess mode meets: optional
surrounding whitespace, an optional sign, then decimal digits. -/
def pyParseInt (s : Str) : Option ℤ :=
  let t := pyStrip s
  let (sign, ds) :=
    match t with
    | '-' :: rest => ((-1 : ℤ), rest)
    | '+' :: rest => ((1 : ℤ), rest)
    | rest => ((1 : ℤ), rest)
  if ds ≠ [] ∧ ds.all (fun c => '0' ≤ c ∧ c ≤ '9') then
    some (sign * (digitsToNat ds : ℤ))
  else none

/-! ### `normalize_text` and `fuzzy_match` (services.py) -/

/-- Latin-1 precomposed letters decompose (NFD) into a base letter plus
a combining mark; dropping the mark leaves the base letter.  Characters
without a decomposition are returned unchanged (they are removed by the
`[^a-z0-9\s]` filter right after, exactly as in the source). -/
def nfdBase (c : Char) : Char :=
  let n := c.toNat
  if n < 0xC0 ∨ 0xFF < n then c
  else if 0xE0 ≤ n ∧ n ≤ 0xE5 then 'a'
  else if n = 0xE7 then 'c'
  else if 0xE8 ≤ n ∧ n ≤ 0xEB then 'e'
  else if 0xEC ≤ n ∧ n ≤ 0xEF then 'i'
  else if n = 0xF1 then 'n'
  else if 0xF2 ≤ n ∧ n ≤ 0xF6 then 'o'
  else if 0xF9 ≤ n ∧ n ≤ 0xFC then 'u'
  else if n = 0xFD ∨ n = 0xFF then 'y'
  else c

/-- Leading articles stripped by `normalize_text`, in source order. -/
def articleList : List Str :=
  ["the ".toList, "le ".toList, "la ".toList, "les ".toList,
   ['l', apos], "un ".toList, "une ".toList, "des ".toList]

/-- Strip the articles in sequence: each prefix in the list is removed
in turn if the current text starts with it (the Python loop does not
break after a removal). -/
def stripArticles (s : Str) : Str :=
  articleList.foldl
    (fun t p => if p.isPrefixOf t then t.drop p.length else t) s

/-- Collapse runs of whitespace to single spaces (regex `\s+` → `" "`);
the flag records whether the previous character was whitespace. -/
def collapseSpacesGo : Bool → Str → Str
  | _, [] => []
  | inRun, c :: cs =>
    if isPySpace c then
      if inRun then collapseSpacesGo true cs
      else ' ' :: collapseSpacesGo true cs
    else c :: collapseSpacesGo false cs

/-- Collapse runs of whitespace to single spaces. -/
def collapseSpaces (s : Str) : Str := collapseSpacesGo false s

/-- Python substring containment (`sub in big`). -/
def isSubstr : Str → Str → Bool
  | sub, [] => sub.isEmpty
  | sub, b :: bs => sub.isPrefixOf (b :: bs) || isSubstr sub bs

/-- Embedding of `normalize_text`: lowercase and strip, remove accents
(NFD then drop combining marks), strip leading articles, keep only
`a-z0-9` and whitespace, collapse whitespace, strip. -/
def normalizeText (s : Str) : Str :=
  let t := pyStrip (lowerStr s)
  let t := t.map nfdBase
  let t := stripArticles t
  let t := t.filter (fun c =>
    ('a' ≤ c ∧ c ≤ 'z') ∨ ('0' ≤ c ∧ c ≤ '9') ∨ isPySpace c)
  pyStrip (collapseSpaces t)

/-- Inner loop of the edit-distance dynamic program in `fuzzy_match`:
walks the remaining correct characters with the old row (`olds`), the
value diagonally above (`prev`) and the value to the left (`cur`). -/
def levInner (gi : Char) : List Char → List ℕ → ℕ → ℕ → List ℕ
  | [], _, _, _ => []
  | _ :: _, [], _, _ => []
  | cj :: cs, dj :: ds, prev, cur =>
    let nj := if gi = cj then prev else 1 + min prev (min dj cur)
    nj :: levInner gi cs ds dj nj

/-- Outer loop of the edit-distance dynamic program: one row per
character of the guess, starting from row `[0, 1, …, len c]`. -/
def levLoop : List Char → List Char → List ℕ → ℕ → List ℕ
  | [], _, dp, _ => dp
  | gi :: gs, c, dp, i =>
    let dp' :=
      match dp with
      | [] => []
      | d0 :: ds => i :: levInner gi c ds d0 i
    levLoop gs c dp' (i + 1)

/-- Edit distance as computed by the DP rows in `fuzzy_match`. -/
def editDistance (g c : List Char) : ℕ :=
  (levLoop g c (List.range (c.length + 1)) 1).getLastD 0

/-- Containment score of `fuzzy_match`: when one normalized string
contains the other, the length quotient `min/max` (0 on empty input). -/
def containScore (g c : Str) : ℚ :=
  if 0 < max g.length c.length then
    (min g.length c.length : ℚ) / (max g.length c.length)
  else 0

/-- Final similarity of `fuzzy_match`: positional character agreement
over the longer length, improved by the edit-distance similarity for
strings of length at most 30. -/
def simScore (g c : Str) : ℚ :=
  let maxLen := max g.length c.length
  let common := ((g.zip c).filter fun p => p.1 = p.2).length
  let sim : ℚ := (common : ℚ) / maxLen
  if maxLen ≤ 30 then max sim (1 - (editDistance g c : ℚ) / maxLen)
  else sim

/-- Body of `fuzzy_match` on already-normalized strings: equality, then
containment (taken only when its score meets the threshold, otherwise
the source falls through), then the emptiness guard, then similarity
against the threshold. -/
def fuzzyCore (g c : Str) (threshold : ℚ) : Bool × ℚ :=
  if g = c then (true, 1)
  else if (isSubstr g c ∨ isSubstr c g) ∧ threshold ≤ containScore g c then
    (true, containScore g c)
  else if g = [] ∨ c = [] then (false, 0)
  else if threshold ≤ simScore g c then (true, simScore g c)
  else (false, simScore g c)

/-- Embedding of `fuzzy_match`: normalize both strings, then compare.
Returns `(is_match, similarity)`. -/
def fuzzyMatch (given correct : Str) (threshold : ℚ) : Bool × ℚ :=
  fuzzyCore (normalizeText given) (normalizeText correct) threshold

/-! ### Game enumerations and answer checking (models.py, services.py) -/

/-- Game modes (`GameMode` text choices). -/
inductive GMode
  | classique
  | rapide
  | generation
  | paroles
  | karaoke
deriving DecidableEq

/-- Answer modes (`AnswerMode` text choices). -/
inductive AMode
  | mcq
  | text
deriving DecidableEq

/-- Game statuses (`GameStatus` text choices). -/
inductive GStatus
  | waiting
  | inProgress
  | finished
  | cancelled
deriving DecidableEq

/-- The slice of a round's `extra_data` JSON blob that scoring reads:
`answer_mode`, and the artist/title stored at round creation time. -/
structure ExtraData where
  answerMode : AMode
  artistName : Str
  trackName : Str
deriving DecidableEq

/-- Embedding of `GameService._check_classique_text_answer`.  `parse`
stands for `json.loads` restricted to object payloads: `some (a, t)`
when the payload is a JSON object (missing keys defaulting to `""`),
`none` when parsing fails or yields a non-dict. -/
def checkClassiqueText (parse : Str → Option (Str × Str))
    (answer correctAnswer : Str) (extra : ExtraData) : Bool × ℚ :=
  match parse answer with
  | some (artistAnswer, titleAnswer) =>
    let artistOk :=
      if artistAnswer ≠ [] ∧ extra.artistName ≠ [] then
        (fuzzyMatch artistAnswer extra.artistName (3/4)).1
      else false
    let titleOk :=
      if titleAnswer ≠ [] ∧ extra.trackName ≠ [] then
        (fuzzyMatch titleAnswer extra.trackName (3/4)).1
      else false
    if artistOk ∧ titleOk then (true, 2)
    else if artistOk ∨ titleOk then (true, 1)
    else (false, 0)
  | none =>
    let r := fuzzyMatch answer correctAnswer (3/4)
    (r.1, if r.1 then r.2 else 0)

/-- Embedding of `GameService.check_answer`: returns
`(is_correct, accuracy_factor)`. -/
def checkAnswer (parse : Str → Option (Str × Str)) (gameMode : GMode)
    (answer correctAnswer : Str) (extra : ExtraData) : Bool × ℚ :=
  if gameMode = .generation then
    match pyParseInt answer, pyParseInt correctAnswer with
    | some given, some correct =>
      let diff := (given - correct).natAbs
      if diff = 0 then (true, 1)
      else if diff ≤ 2 then (true, 3/4)
      else if diff ≤ 5 then (true, 2/5)
      else (false, 0)
    | _, _ => (false, 0)
  else if extra.answerMode = .text then
    if gameMode = .classique ∨ gameMode = .rapide then
      checkClassiqueText parse answer correctAnswer extra
    else
      let r := fuzzyMatch answer correctAnswer (3/4)
      (r.1, if r.1 then r.2 else 0)
  else if answer = correctAnswer then (true, 1) else (false, 0)

/-- Embedding of `GameService.calculate_score` (the `max_time` argument
is accepted and unused, as in the source). -/
def calculateScore (accuracyFactor : ℚ) (responseTime : ℚ)
    (_maxTime : ℤ) : ℤ :=
  if accuracyFactor ≤ 0 then 0
  else
    let raw : ℤ := max 10 (100 - pyTrunc (responseTime * 3))
    max 5 (pyTrunc ((raw : ℚ) * accuracyFactor))

/-- Rank bonus applied in `submit_answer` when the answer is correct,
from the count of previously stored correct answers of the round. -/
def rankBonus (correctBefore : ℕ) : ℤ :=
  if correctBefore = 0 then 10
  else if correctBefore = 1 then 5
  else if correctBefore = 2 then 2
  else 0

/-! ### Data model records (models.py) -/

/-- A `GamePlayer` row. -/
structure PlayerRec where
  id : ℕ
  userId : ℕ
  score : ℤ
  rank : Option ℕ
  isConnected : Bool
  joinedAt : ℕ
deriving DecidableEq

/-- A `GameRound` row. -/
structure RoundRec where
  id : ℕ
  gameId : ℕ
  roundNumber : ℕ
  trackId : Str
  trackName : Str
  artistName : Str
  correctAnswer : Str
  options : List Str
  previewUrl : Str
  questionType : Str
  questionText : Str
  extraData : ExtraData
  duration : ℕ
  startedAt : Option ℕ
  endedAt : Option ℕ
deriving DecidableEq

/-- A `GameAnswer` row. -/
structure AnswerRec where
  roundId : ℕ
  playerId : ℕ
  answer : Str
  isCorrect : Bool
  pointsEarned : ℤ
  responseTime : ℚ
deriving DecidableEq

/-- A `Game` row together with its related players, rounds and answers
(the unit of contention the endpoints mutate). -/
structure GameState where
  id : ℕ
  roomCode : Str
  hostId : ℕ
  mode : GMode
  status : GStatus
  maxPlayers : ℕ
  numRounds : ℕ
  playlistId : Option Str
  answerMode : AMode
  roundDuration : ℕ
  players : List PlayerRec
  rounds : List RoundRec
  answers : List AnswerRec
  startedAt : Option ℕ
  finishedAt : Option ℕ
deriving DecidableEq

/-! ### Serializers (serializers.py) -/

/-- Values appearing in a serialized round. -/
inductive FieldVal
  | s (v : Str)
  | n (v : ℤ)
  | ls (v : List Str)
  | ot (v : Option ℕ)
  | ed (v : ExtraData)
deriving DecidableEq

/-- A serialized round payload: ordered key/value pairs. -/
abbrev SerializedRound := List (String × FieldVal)

/-- Embedding of `GameRoundSerializer` (the serializer used for every
pre-resolution round payload): exactly its `Meta.fields` list, which
does not contain `correct_answer`. -/
def serializeGameRound (r : RoundRec) : SerializedRound :=
  [("id", .n r.id), ("game", .n r.gameId),
   ("round_number", .n r.roundNumber), ("track_id", .s r.trackId),
   ("track_name", .s r.trackName), ("artist_name", .s r.artistName),
   ("options", .ls r.options), ("preview_url", .s r.previewUrl),
   ("question_type", .s r.questionType),
   ("question_text", .s r.questionText), ("extra_data", .ed r.extraData),
   ("duration", .n r.duration), ("started_at", .ot r.startedAt),
   ("ended_at", .ot r.endedAt)]

/-! ### Broadcast payloads and responses (views.py, consumers.py) -/

/-- The `results` object broadcast with `round_ended`: correct answer,
serialized round, per-player round scores (keyed by player identity)
and the score-ordered player list. -/
structure RoundEndResults where
  correctAnswer : Str
  roundData : SerializedRound
  playerScores : List (ℕ × ℤ × Bool × ℚ)
  updatedPlayers : List PlayerRec
deriving DecidableEq

/-- Events fanned out to the room's channel group. -/
inductive BroadcastEvent
  | roundStarted (roundData : SerializedRound)
  | roundEnded (results : RoundEndResults)
  | nextRoundMsg (roundData : SerializedRound)
      (updatedPlayers : List PlayerRec)
  | gameFinished (finalState : GameState)
deriving DecidableEq

/-- HTTP responses returned by the game endpoints. -/
inductive Resp
  | created (a : AnswerRec)
  | okEndRound (correctAnswer : Str)
  | okAlreadyEnded
  | okStart (game : GameState) (roundsCreated : ℕ)
      (firstRound : Option SerializedRound)
  | okNextRound (roundData : SerializedRound)
  | okGameFinished (game : GameState)
  | badRequest (msg : Str)
  | forbidden (msg : Str)
deriving DecidableEq

/-- The error responses (HTTP 400 / 403); everything else is 2xx. -/
def Resp.isError : Resp → Bool
  | .badRequest _ => true
  | .forbidden _ => true
  | _ => false

/-- Error and status messages of views.py and services.py (apostrophes
are spliced in by code point). -/
def msgNoActive : Str := "Aucun round actif.".toList

/-- Message for a duplicate answer submission. -/
def msgAlreadyAnswered : Str := "Vous avez déjà répondu à ce round.".toList

/-- Message of the (unreachable) already-ended branch of end-round. -/
def msgAlreadyEnded : Str := "Round déjà terminé.".toList

/-- Message raised by `start_game` outside Waiting status. -/
def msgNotWaiting : Str := "Game is not in waiting status".toList

/-- Message raised by `start_game` without a playlist. -/
def msgMustHavePlaylist : Str := "Game must have a playlist".toList

/-- Message raised when question generation yields nothing. -/
def msgFailedGenerate : Str :=
  "Failed to generate questions from playlist".toList

/-- Message for an empty answer payload. -/
def msgNoAnswer : Str := "Aucune réponse fournie.".toList

/-- Message when a non-member hits a player endpoint. -/
def msgNotInGame : Str :=
  "Vous n".toList ++ apos :: "êtes pas dans cette partie.".toList

/-- Message when a non-host calls start. -/
def msgOnlyHostStart : Str :=
  "Seul l".toList ++ apos :: "hôte peut démarrer la partie.".toList

/-- Message when a non-host calls end-round. -/
def msgOnlyHostEnd : Str :=
  "Seul l".toList ++ apos :: "hôte peut terminer le round.".toList

/-- Message when a non-host calls next-round. -/
def msgOnlyHostNext : Str :=
  "Seul l".toList ++ apos :: "hôte peut passer au round suivant.".toList

/-- Message for too few players (karaoke). -/
def msgMin1 : Str := "Au moins 1 joueur est nécessaire.".toList

/-- Message for too few players (other modes). -/
def msgMin2 : Str := "Au moins 2 joueurs sont nécessaires.".toList

/-- Message when no playlist is selected. -/
def msgSelectPlaylist : Str :=
  "Veuillez sélectionner une playlist.".toList

/-! ### GameService queries and mutations (services.py) -/

/-- First round by `round_number` (`order_by("round_number").first()`;
round numbers are unique per game). -/
def minByRound : List RoundRec → Option RoundRec
  | [] => none
  | r :: rs =>
    match minByRound rs with
    | none => some r
    | some m => if r.roundNumber < m.roundNumber then some r else some m

/-- Embedding of `GameService.get_current_round`: the lowest-numbered
round with `started_at` set and `ended_at` null. -/
def currentRound (g : GameState) : Option RoundRec :=
  minByRound (g.rounds.filter fun r => r.startedAt.isSome && r.endedAt.isNone)

/-- Embedding of `GameService.get_next_round`: the lowest-numbered
round with `started_at` null. -/
def nextRoundQuery (g : GameState) : Option RoundRec :=
  minByRound (g.rounds.filter fun r => r.startedAt.isNone)

/-- Count of already-stored correct answers of a round (the rank-bonus
lookup in `submit_answer`). -/
def correctCountBefore (g : GameState) (r : RoundRec) : ℕ :=
  (g.answers.filter fun a => a.roundId == r.id && a.isCorrect).length

/-- Embedding of `GameService.submit_answer`: check the answer, compute
points with rank bonus, store the answer row and add the points to the
submitting player's score. -/
def submitAnswerService (parse : Str → Option (Str × Str))
    (g : GameState) (player : PlayerRec) (r : RoundRec)
    (answer : Str) (responseTime : ℚ) : AnswerRec × GameState :=
  let chk := checkAnswer parse g.mode answer r.correctAnswer r.extraData
  let base := calculateScore chk.2 responseTime r.duration
  let bonus := if chk.1 then rankBonus (correctCountBefore g r) else 0
  let points := base + bonus
  let ans : AnswerRec :=
    { roundId := r.id, playerId := player.id, answer := answer,
      isCorrect := chk.1, pointsEarned := points,
      responseTime := responseTime }
  (ans,
   { g with
     answers := g.answers ++ [ans],
     players := g.players.map fun q =>
       if q.id = player.id then { q with score := q.score + points }
       else q })

/-- Stable insertion keeping scores descending (insert after all
entries with a score at least as large). -/
def insertByScore (p : PlayerRec) : List PlayerRec → List PlayerRec
  | [] => [p]
  | q :: qs =>
    if q.score < p.score then p :: q :: qs else q :: insertByScore p qs

/-- Players ordered by score descending (`order_by("-score")`), ties
kept in stored order. -/
def sortByScoreDesc (ps : List PlayerRec) : List PlayerRec :=
  ps.foldl (fun acc p => insertByScore p acc) []

/-- Whether a player list is sorted by score descending (the only
ordering guarantee `order_by("-score")` gives the caller). -/
def scoresSortedDesc : List PlayerRec → Bool
  | [] => true
  | [_] => true
  | p :: q :: rest =>
    decide (q.score ≤ p.score) && scoresSortedDesc (q :: rest)

/-- Embedding of `GameService.end_round`: stamp `ended_at`. -/
def endRoundService (g : GameState) (r : RoundRec) (now : ℕ) : GameState :=
  { g with
    rounds := g.rounds.map fun x =>
      if x.id = r.id then { x with endedAt := some now } else x }

/-- Embedding of `GameService.start_round`: stamp `started_at`. -/
def startRoundService (g : GameState) (r : RoundRec) (now : ℕ) : GameState :=
  { g with
    rounds := g.rounds.map fun x =>
      if x.id = r.id then { x with startedAt := some now } else x }

/-- Embedding of `GameService.finish_game` on the game's rows: flip the
status to Finished, stamp `finished_at`, and assign `rank = 1, 2, …` by
enumerating the players as returned by `order_by("-score")` — the
`dbOrder` argument stands for that returned order (sorted by score
descending, ties in whatever order the database yields).  The per-user
statistics updates and achievement-collaborator calls touch rows
outside this aggregate and are not modelled. -/
def finishGameService (g : GameState) (dbOrder : List PlayerRec)
    (now : ℕ) : GameState :=
  { g with
    status := .finished,
    finishedAt := some now,
    players := dbOrder.enum.map fun ip =>
      { ip.2 with rank := some (ip.1 + 1) } }

/-- The `results` payload assembled when a round ends. -/
def buildRoundEndResults (g : GameState) (r : RoundRec) : RoundEndResults :=
  { correctAnswer := r.correctAnswer,
    roundData := serializeGameRound r,
    playerScores := (g.answers.filter fun a => a.roundId == r.id).map
      fun a => (a.playerId, a.pointsEarned, a.isCorrect, a.responseTime),
    updatedPlayers := sortByScoreDesc g.players }

/-! ### Endpoints (views.py) -/

/-- Embedding of `GameViewSet.answer`: membership check, active-round
check, duplicate check, empty-payload check, then `submit_answer` and
the all-players-answered auto-end fast path. -/
def answerEndpoint (parse : Str → Option (Str × Str)) (g : GameState)
    (userId : ℕ) (answerText : Str) (responseTime : ℚ) (now : ℕ) :
    Resp × GameState × List BroadcastEvent :=
  match g.players.find? (fun p => p.userId == userId) with
  | none => (.forbidden msgNotInGame, g, [])
  | some player =>
    match currentRound g with
    | none => (.badRequest msgNoActive, g, [])
    | some r =>
      if g.answers.any (fun a => a.roundId == r.id && a.playerId == player.id)
      then (.badRequest msgAlreadyAnswered, g, [])
      else if answerText.isEmpty then (.badRequest msgNoAnswer, g, [])
      else
        let res := submitAnswerService parse g player r answerText responseTime
        let g1 := res.2
        let totalPlayers := g1.players.length
        let answered := (g1.answers.filter fun a => a.roundId == r.id).length
        if totalPlayers ≤ answered then
          let g2 := endRoundService g1 r now
          let r' := { r with endedAt := some now }
          (.created res.1, g2, [.roundEnded (buildRoundEndResults g2 r')])
        else (.created res.1, g1, [])

/-- Embedding of `GameViewSet.end_current_round`: host check, current
round lookup (which only ever returns rounds with `ended_at` null, so
the already-ended 200 branch of the source is unreachable but is kept),
then `end_round` plus a single `round_ended` broadcast. -/
def endCurrentRoundEndpoint (g : GameState) (requesterId : ℕ)
    (now : ℕ) : Resp × GameState × List BroadcastEvent :=
  if requesterId ≠ g.hostId then (.forbidden msgOnlyHostEnd, g, [])
  else
    match currentRound g with
    | none => (.badRequest msgNoActive, g, [])
    | some cur =>
      if cur.endedAt.isSome then (.okAlreadyEnded, g, [])
      else
        let g' := endRoundService g cur now
        let cur' := { cur with endedAt := some now }
        (.okEndRound cur'.correctAnswer, g',
         [.roundEnded (buildRoundEndResults g' cur')])

/-- How many players a mode needs to start (karaoke is solo). -/
def minPlayersFor (m : GMode) : ℕ := if m = .karaoke then 1 else 2

/-- Input of round generation: one generated question, as produced by
`QuestionGeneratorService.generate_questions` (an external-collaborator
boundary of the start path). -/
structure QuestionSpec where
  trackId : Str
  trackName : Str
  artistName : Str
  correctAnswer : Str
  options : List Str
  previewUrl : Str
  questionType : Str
  questionText : Str
deriving DecidableEq

/-- Embedding of `GameService.start_game`: refuse outside Waiting,
refuse without a playlist or questions, then create the round rows
(options emptied in free-text mode, artist/title copied into
`extra_data`), flip the status to InProgress, stamp `started_at` and
start round 1. -/
def startGameService (g : GameState) (questions : List QuestionSpec)
    (now : ℕ) : Except Str (GameState × List RoundRec) :=
  if g.status ≠ .waiting then .error msgNotWaiting
  else if g.playlistId.isNone then .error msgMustHavePlaylist
  else if questions.isEmpty then .error msgFailedGenerate
  else
    let numRounds := if g.numRounds = 0 then 10 else g.numRounds
    let roundDur := if g.roundDuration = 0 then 30 else g.roundDuration
    let isText := g.answerMode = .text
    let newRounds := (questions.take numRounds).enum.map fun iq =>
      { id := iq.1 + 1, gameId := g.id, roundNumber := iq.1 + 1,
        trackId := iq.2.trackId, trackName := iq.2.trackName,
        artistName := iq.2.artistName,
        correctAnswer := iq.2.correctAnswer,
        options := if isText then [] else iq.2.options,
        previewUrl := iq.2.previewUrl,
        questionType := iq.2.questionType,
        questionText := iq.2.questionText,
        extraData :=
          { answerMode := g.answerMode, artistName := iq.2.artistName,
            trackName := iq.2.trackName },
        duration := roundDur,
        startedAt := if iq.1 = 0 then some now else none,
        endedAt := none : RoundRec }
    .ok ({ g with
           rounds := g.rounds ++ newRounds,
           status := .inProgress,
           startedAt := some now }, newRounds)

/-- Embedding of `GameViewSet.start`: host check; an InProgress game
returns HTTP 200 with the existing rounds; then player-count and
playlist checks; then `start_game` (whose `ValueError` becomes a 400)
and a single `round_started` broadcast of the first round. -/
def startEndpoint (g : GameState) (requesterId : ℕ)
    (questions : List QuestionSpec) (now : ℕ) :
    Resp × GameState × List BroadcastEvent :=
  if requesterId ≠ g.hostId then (.forbidden msgOnlyHostStart, g, [])
  else if g.status = .inProgress then
    (.okStart g g.rounds.length ((minByRound g.rounds).map serializeGameRound),
     g, [])
  else if g.players.length < minPlayersFor g.mode then
    (.badRequest (if g.mode = .karaoke then msgMin1 else msgMin2), g, [])
  else if g.mode ≠ .karaoke ∧ g.playlistId.isNone then
    (.badRequest msgSelectPlaylist, g, [])
  else
    match startGameService g questions now with
    | .error e => (.badRequest e, g, [])
    | .ok gr =>
      let events :=
        match gr.2 with
        | [] => []
        | r0 :: _ => [BroadcastEvent.roundStarted (serializeGameRound r0)]
      (.okStart gr.1 gr.2.length (gr.2.head?.map serializeGameRound),
       gr.1, events)

/-- Embedding of `GameViewSet.next_round`: host check; end the current
round if one is active (broadcasting its results); then either finish
the game (no next round) or start the next round and broadcast it with
the score-ordered player list.  `dbOrder` stands for the player order
the database returns to `finish_game`. -/
def nextRoundEndpoint (g : GameState) (requesterId : ℕ)
    (dbOrder : List PlayerRec) (now : ℕ) :
    Resp × GameState × List BroadcastEvent :=
  if requesterId ≠ g.hostId then (.forbidden msgOnlyHostNext, g, [])
  else
    let step1 : GameState × List BroadcastEvent :=
      match currentRound g with
      | none => (g, [])
      | some cur =>
        let g' := endRoundService g cur now
        let cur' := { cur with endedAt := some now }
        (g', [.roundEnded (buildRoundEndResults g' cur')])
    match nextRoundQuery step1.1 with
    | none =>
      let g2 := finishGameService step1.1 dbOrder now
      (.okGameFinished g2, g2, step1.2 ++ [.gameFinished g2])
    | some nxt =>
      let g2 := startRoundService step1.1 nxt now
      let nxt' := { nxt with startedAt := some now }
      (.okNextRound (serializeGameRound nxt'), g2,
       step1.2 ++
        [.nextRoundMsg (serializeGameRound nxt') (sortByScoreDesc g2.players)])

/-! ### Lyrics fill-in-the-blank questions (lyrics_service.py) -/

/-- The stop list `BORING_WORDS` (a Python set literal; duplicated
entries collapse). -/
def boringWords : List Str :=
  (["i", "a", "the", "an", "is", "it", "in", "on", "to", "of", "and",
    "or", "at", "my", "me", "we", "he", "be", "do", "so", "no", "oh",
    "je", "tu", "il", "le", "la", "de", "et", "un", "ne", "se", "ce",
    "en", "du", "au", "ma", "sa", "si", "ou", "ni", "que", "qui",
    "les", "des", "une", "pas", "son", "par", "sur", "mais", "pour",
    "you", "for", "are", "but", "not", "all", "can", "had", "was",
    "has", "his", "her", "she", "out", "got", "like", "just", "yeah",
    "ooh", "hey", "mmm", "hmm", "ah", "uh"]).map String.toList

/-- Membership in the stop list. -/
def isBoring (w : Str) : Bool := boringWords.contains w

/-- Characters kept by the cleaning regex `[^a-zA-ZÀ-ÿ']` (letters and
the apostrophe). -/
def isAlphaApos (c : Char) : Bool := isWordLetter c || c = apos

/-- Characters kept by the phrase regex `[^a-zA-ZÀ-ÿ' -]` and matched
by the chunk regex `[a-zA-ZÀ-ÿ' -]{1,}`. -/
def isPhraseChar (c : Char) : Bool :=
  isWordLetter c || c = apos || c = ' ' || c = '-'

/-- Clean a word for candidate filtering:
`re.sub(r"[^a-zA-ZÀ-ÿ']", "", w).lower()`. -/
def cleanSeqWord (w : Str) : Str := lowerStr (w.filter isAlphaApos)

/-- Clean a word for the displayed phrase:
`re.sub(r"[^a-zA-ZÀ-ÿ' -]", "", w)`. -/
def cleanPhraseWord (w : Str) : Str := w.filter isPhraseChar

/-- One step of splitting on whitespace: a whitespace character opens a
new piece, any other character extends the current piece. -/
def splitWsStep (c : Char) (acc : List Str) : List Str :=
  match acc with
  | [] => if isPySpace c then [[], []] else [[c]]
  | t :: ts => if isPySpace c then [] :: t :: ts else (c :: t) :: ts

/-- Raw split of a string on whitespace (pieces between whitespace
characters, empties included). -/
def splitWsRaw (s : Str) : List Str := s.foldr splitWsStep [[]]

/-- Python `str.split()`: whitespace-separated tokens, empties dropped. -/
def wsTokens (s : Str) : List Str := (splitWsRaw s).filter (fun t => t ≠ [])

/-- Split on newline characters (Python `split("\n")`). -/
def splitNl (s : Str) : List Str :=
  s.foldr
    (fun c acc =>
      match acc with
      | [] => if c = '\n' then [[], []] else [[c]]
      | t :: ts => if c = '\n' then [] :: t :: ts else (c :: t) :: ts)
    [[]]

/-- Join words with single spaces (Python `" ".join`). -/
def joinSpace : List Str → Str
  | [] => []
  | [w] => w
  | w :: ws => w ++ ' ' :: joinSpace ws

/-- All length-`n` windows of consecutive entries
(`range(0, len(l) - n + 1)` slices; empty when `l` is shorter than `n`). -/
def ngrams (n : ℕ) (l : List Str) : List (List Str) :=
  if l.length < n then []
  else (List.range (l.length - n + 1)).map fun i => (l.drop i).take n

/-- Maximal runs of phrase characters in the lyrics
(`re.findall(r"[a-zA-ZÀ-ÿ' -]{1,}", lyrics)`). -/
def chunkRuns (s : Str) : List Str :=
  (s.foldr
    (fun c acc =>
      match acc with
      | [] => if isPhraseChar c then [[c]] else [[], []]
      | t :: ts => if isPhraseChar c then (c :: t) :: ts else [] :: t :: ts)
    [[]]).filter (fun t => t ≠ [])

/-- Candidate blank sequences of a line: every window of
`words_to_blank` consecutive words whose cleaned forms are all nonempty
and none stop-listed, together with its start index. -/
def seqCandidates (words : List Str) (wtb : ℕ) : List (ℕ × List Str) :=
  (List.range (words.length - wtb + 1)).filterMap fun start =>
    let seq := (words.drop start).take wtb
    let cleanSeq := seq.map cleanSeqWord
    if cleanSeq.any (fun w => w.length < 1) then none
    else if cleanSeq.any (fun w => isBoring w) then none
    else some (start, seq)

/-- Uppercase first letter test (`w[0].isupper()` on chunk text, whose
alphabet is ASCII plus Latin-1). -/
def firstIsUpper : Str → Bool
  | [] => false
  | c :: _ =>
    ('A' ≤ c ∧ c ≤ 'Z') ∨
      (0xC0 ≤ c.toNat ∧ c.toNat ≤ 0xDE ∧ c.toNat ≠ 0xD7)

/-- Wrong-option phrases sampled from the lyrics chunks: windows with
no stop-listed or letterless token, first word keeping its capital. -/
def lyricPhrases (lyrics : Str) (wtb : ℕ) : List Str :=
  (ngrams wtb (chunkRuns lyrics)).filterMap fun seq =>
    let cleaned := seq.map cleanSeqWord
    if cleaned.any (fun w => isBoring w || w.length < 1) then none
    else
      some (joinSpace (seq.enum.map fun iw =>
        if iw.1 = 0 ∧ firstIsUpper iw.2 then iw.2 else lowerStr iw.2))

/-- Wrong-option phrases built from other tracks' words. -/
def otherCandidates (allWords : List Str) (wtb : ℕ) : List Str :=
  (ngrams wtb allWords).filterMap fun seq =>
    let cleaned := seq.map cleanSeqWord
    if cleaned.any (fun w => isBoring w || w.length < 1) then none
    else some (joinSpace seq)

/-- First collection loop of wrong phrases (from the lyrics), keeping
phrases differing from the correct one, stopping at six. -/
def pickWrongLyric (cands : List Str) (correctLow : Str)
    (acc : List Str) : List Str :=
  match cands with
  | [] => acc
  | p :: rest =>
    let acc' := if lowerStr p ≠ correctLow then acc ++ [p] else acc
    if 6 ≤ acc'.length then acc'
    else pickWrongLyric rest correctLow acc'

/-- Second collection loop (from other tracks' words), also skipping
phrases already collected, stopping at ten. -/
def pickWrongOther (cands : List Str) (correctLow : Str)
    (acc : List Str) : List Str :=
  match cands with
  | [] => acc
  | p :: rest =>
    let acc' :=
      if lowerStr p ≠ correctLow ∧ ¬ acc.contains p then acc ++ [p]
      else acc
    if 10 ≤ acc'.length then acc'
    else pickWrongOther rest correctLow acc'

/-- Case-insensitive deduplication keeping at most three wrong phrases
(`seen` starts out holding the lowercased correct phrase). -/
def dedupWrong (ws : List Str) (seen : List Str)
    (acc : List Str) : List Str :=
  match ws with
  | [] => acc
  | w :: rest =>
    let lw := lowerStr w
    if seen.contains lw then
      if 3 ≤ acc.length then acc else dedupWrong rest seen acc
    else
      let acc' := acc ++ [w]
      if 3 ≤ acc'.length then acc'
      else dedupWrong rest (seen ++ [lw]) acc'

/-- The blank placeholder inserted into the snippet. -/
def blankMark : Str := "_____".toList

/-- Per-line body of `create_lyrics_question`: candidate selection,
random blank choice (`pick`), snippet construction, wrong-phrase
collection (`shuffle` standing for `random.shuffle`), deduplication and
the final option shuffle.  Returns `none` where the source `continue`s
to the next line. -/
def tryLine (pick : List (ℕ × List Str) → ℕ × List Str)
    (shuffle : List Str → List Str) (lyrics : Str)
    (allTracksWords : Option (List Str)) (wtb : ℕ)
    (line : Str) : Option (Str × Str × List Str) :=
  let words := wsTokens line
  if words.length < 2 + wtb then none
  else
    let sequences := seqCandidates words wtb
    if sequences.isEmpty then none
    else
      let chosen := pick sequences
      let cleanWords := chosen.2.map cleanPhraseWord
      let correctPhrase := joinSpace cleanWords
      let snippet :=
        joinSpace (words.take chosen.1 ++ [blankMark] ++
          words.drop (chosen.1 + wtb))
      let wrong1 :=
        pickWrongLyric (shuffle (lyricPhrases lyrics wtb))
          (lowerStr correctPhrase) []
      let wrong2 :=
        match allTracksWords with
        | some ws =>
          if ws ≠ [] then
            pickWrongOther (shuffle (otherCandidates ws wtb))
              (lowerStr correctPhrase) wrong1
          else wrong1
        | none => wrong1
      let uniqueWrong := dedupWrong wrong2 [lowerStr correctPhrase] []
      if uniqueWrong.length < 3 then none
      else
        some (snippet, correctPhrase,
          shuffle ([correctPhrase] ++ uniqueWrong.take 3))

/-- Embedding of `create_lyrics_question`: qualifying lines are the
stripped nonempty lines longer than 15 characters; the first of the
first fifteen that yields a question wins. -/
def createLyricsQuestion (pick : List (ℕ × List Str) → ℕ × List Str)
    (shuffle : List Str → List Str) (lyrics : Str)
    (allTracksWords : Option (List Str)) (wtb : ℕ) :
    Option (Str × Str × List Str) :=
  let lines := (splitNl lyrics).filterMap fun l =>
    let t := pyStrip l
    if t ≠ [] ∧ 15 < t.length then some t else none
  (lines.take 15).findSome?
    (tryLine pick shuffle lyrics allTracksWords wtb)

/-! ### Concrete instances used by witnesses and counterexamples -/

/-- Payload parser returning no JSON object (plain-text answers). -/
def parseNoneW : Str → Option (Str × Str) := fun _ => none

/-- MCQ `extra_data` of the scenario round. -/
def extraMcq : ExtraData :=
  { answerMode := .mcq, artistName := "Artist A".toList,
    trackName := "Track A".toList }

/-- The scenario round: Classic MCQ, correct answer `Track A`. -/
def roundC2 : RoundRec :=
  { id := 1, gameId := 1, roundNumber := 1, trackId := "t1".toList,
    trackName := "Track A".toList, artistName := "Artist A".toList,
    correctAnswer := "Track A".toList,
    options := ["Track A".toList, "Track B".toList, "Track C".toList,
                "Track D".toList],
    previewUrl := [], questionType := "guess_title".toList,
    questionText := [], extraData := extraMcq, duration := 30,
    startedAt := some 1, endedAt := none }

/-- First scenario player. -/
def playerC2a : PlayerRec :=
  { id := 1, userId := 1, score := 0, rank := none, isConnected := true,
    joinedAt := 0 }

/-- Second scenario player. -/
def playerC2b : PlayerRec :=
  { id := 2, userId := 2, score := 0, rank := none, isConnected := true,
    joinedAt := 0 }

/-- The scenario room: two players, Classic, MCQ, one started round. -/
def gameC2 : GameState :=
  { id := 1, roomCode := "ABC123".toList, hostId := 1,
    mode := .classique, status := .inProgress, maxPlayers := 8,
    numRounds := 1, playlistId := some "p".toList, answerMode := .mcq,
    roundDuration := 30, players := [playerC2a, playerC2b],
    rounds := [roundC2], answers := [], startedAt := some 1,
    finishedAt := none }

/-- Empty `extra_data` for year-guess checks (unused by that branch). -/
def extraGen : ExtraData :=
  { answerMode := .mcq, artistName := [], trackName := [] }

/-- Whether a broadcast event is safe to send pre-resolution: its round
payload (for `round_started` / `next_round` messages) carries no
`correct_answer` key.  `round_ended` events are post-resolution. -/
def eventKeysSafe : BroadcastEvent → Bool
  | .roundStarted p => !((p.map Prod.fst).contains "correct_answer")
  | .nextRoundMsg p _ => !((p.map Prod.fst).contains "correct_answer")
  | _ => true

/-- Payload parser for the double-guess witness: the payload is a JSON
object guessing artist `Queen` and title `Bohemian`. -/
def parseC7 : Str → Option (Str × Str) :=
  fun _ => some ("Queen".toList, "Bohemian".toList)

/-- Free-text `extra_data` whose targets match the C7 witness guesses. -/
def extraC7 : ExtraData :=
  { answerMode := .text, artistName := "Queen".toList,
    trackName := "Bohemian".toList }

/-- An already-stored answer of player 1 for the scenario round. -/
def answerC1 : AnswerRec :=
  { roundId := 1, playerId := 1, answer := "Track A".toList,
    isCorrect := true, pointsEarned := 95, responseTime := 2 }

/-- The scenario room after player 1 already answered round 1. -/
def gameC1 : GameState :=
  { id := 1, roomCode := "ABC123".toList, hostId := 1,
    mode := .classique, status := .inProgress, maxPlayers := 8,
    numRounds := 1, playlistId := some "p".toList, answerMode := .mcq,
    roundDuration := 30, players := [playerC2a, playerC2b],
    rounds := [roundC2], answers := [answerC1], startedAt := some 1,
    finishedAt := none }

/-- Descending sortedness of an integer list (score order). -/
def sortedDescInt : List ℤ → Bool
  | [] => true
  | [_] => true
  | a :: b :: rest => decide (b ≤ a) && sortedDescInt (b :: rest)

/-- The scenario room with Finished status (start must be refused). -/
def gameC6fin : GameState :=
  { id := 1, roomCode := "ABC123".toList, hostId := 1,
    mode := .classique, status := .finished, maxPlayers := 8,
    numRounds := 1, playlistId := some "p".toList, answerMode := .mcq,
    roundDuration := 30, players := [playerC2a, playerC2b],
    rounds := [roundC2], answers := [], startedAt := some 1,
    finishedAt := some 2 }

/-- A player who joined first, 50 points. -/
def p4a : PlayerRec :=
  { id := 1, userId := 1, score := 50, rank := none, isConnected := true,
    joinedAt := 1 }

/-- A player who joined second, also 50 points (a tie). -/
def p4b : PlayerRec :=
  { id := 2, userId := 2, score := 50, rank := none, isConnected := true,
    joinedAt := 2 }

/-- A room holding the two tied players, about to be finished. -/
def gameC4 : GameState :=
  { id := 4, roomCode := "TIEDUP".toList, hostId := 1,
    mode := .classique, status := .inProgress, maxPlayers := 8,
    numRounds := 1, playlistId := some "p".toList, answerMode := .mcq,
    roundDuration := 30, players := [p4a, p4b], rounds := [],
    answers := [], startedAt := some 1, finishedAt := none }

/-- A `random.choice` oracle returning the second element when there is
one (a legitimate choice: it always returns a member). -/
def pickSecond : List (ℕ × List Str) → ℕ × List Str :=
  fun l => l.getD 1 (l.headD (0, []))

/-- A `random.shuffle` oracle leaving the list as it is (the identity
permutation). -/
def shuffleId : List Str → List Str := fun l => l

/-- Lyrics whose second word consists of two apostrophes only. -/
def lyricsC9 : Str :=
  "alpha ".toList ++ [apos, apos] ++
    " bravo charlie delta echo foxtrot golf".toList

/-- Other tracks' words used to top up wrong options. -/
def wordsC9 : List Str :=
  ["november".toList, "oscar".toList, "papa".toList, "quebec".toList]

/-- The snippet the lyrics question built from `lyricsC9` displays. -/
def snippetC9 : Str :=
  "alpha _____ bravo charlie delta echo foxtrot golf".toList

/-- The options the lyrics question built from `lyricsC9` offers. -/
def optsC9 : List Str :=
  [[apos, apos], lyricsC9, "november".toList, "oscar".toList]

/-! ### Helper lemmas on scoring -/

theorem pyTrunc_of_nonneg (q : ℚ) (h : 0 ≤ q) : pyTrunc q = ⌊q⌋ := by
  simp [pyTrunc, h]

theorem fuzzyCore_true_cases (g c : Str) (t : ℚ)
    (h : (fuzzyCore g c t).1 = true) :
    (fuzzyCore g c t).2 = 1 ∨ t ≤ (fuzzyCore g c t).2 := by
  unfold fuzzyCore at h ⊢
  split_ifs at h ⊢ with h1 h2 h3 h4 <;>
    first
      | (left; rfl)
      | (right; exact h2.2)
      | (right; exact h4)

theorem fuzzyMatch_true_cases (g c : Str) (t : ℚ)
    (h : (fuzzyMatch g c t).1 = true) :
    (fuzzyMatch g c t).2 = 1 ∨ t ≤ (fuzzyMatch g c t).2 :=
  fuzzyCore_true_cases (normalizeText g) (normalizeText c) t h

theorem fuzzyMatch_pos (g c : Str) (t : ℚ) (ht : 0 < t)
    (h : (fuzzyMatch g c t).1 = true) : 0 < (fuzzyMatch g c t).2 := by
  rcases fuzzyMatch_true_cases g c t h with h2 | h2
  · rw [h2]; norm_num
  · exact lt_of_lt_of_le ht h2

theorem checkClassiqueText_pos_iff (parse : Str → Option (Str × Str))
    (answer correctAnswer : Str) (extra : ExtraData) :
    0 < (checkClassiqueText parse answer correctAnswer extra).2 ↔
      (checkClassiqueText parse answer correctAnswer extra).1 = true := by
  rcases hp : parse answer with _ | pair
  · simp only [checkClassiqueText, hp]
    rcases hm : (fuzzyMatch answer correctAnswer (3/4)).1 with _ | _
    · simp [hm]
    · have hpos := fuzzyMatch_pos answer correctAnswer (3/4) (by norm_num) hm
      simp [hm, hpos]
  · obtain ⟨aAns, tAns⟩ := pair
    simp only [checkClassiqueText, hp]
    split_ifs <;> norm_num

theorem checkAnswer_pos_iff (parse : Str → Option (Str × Str))
    (mode : GMode) (answer correctAnswer : Str) (extra : ExtraData) :
    0 < (checkAnswer parse mode answer correctAnswer extra).2 ↔
      (checkAnswer parse mode answer correctAnswer extra).1 = true := by
  unfold checkAnswer
  split_ifs with h1 h2 h3 h4
  · rcases hpa : pyParseInt answer with _ | given
    · simp [hpa]
    · rcases hpc : pyParseInt correctAnswer with _ | corr
      · simp [hpa, hpc]
      · simp only [hpa, hpc]
        split_ifs <;> norm_num
  · exact checkClassiqueText_pos_iff parse answer correctAnswer extra
  · rcases hm : (fuzzyMatch answer correctAnswer (3/4)).1 with _ | _
    · simp [hm]
    · have hpos := fuzzyMatch_pos answer correctAnswer (3/4) (by norm_num) hm
      simp [hm, hpos]
  · norm_num
  · norm_num

theorem calculateScore_nonneg (af rt : ℚ) (mt : ℤ) :
    0 ≤ calculateScore af rt mt := by
  unfold calculateScore
  split_ifs
  · exact le_refl 0
  · exact le_trans (by norm_num : (0:ℤ) ≤ 5) (le_max_left _ _)

theorem rankBonus_nonneg (n : ℕ) : 0 ≤ rankBonus n := by
  unfold rankBonus
  split_ifs <;> norm_num

/-! ### Claim C2 — point conversion and rank bonus -/

/-- C2: for every submitted answer, points are 0 when the accuracy
factor is ≤ 0, and otherwise
`max(5, floor(max(10, 100 − floor(rt·3)) · accuracy))` plus the rank
bonus (+10/+5/+2 for the 1st/2nd/3rd correct answer, counted from the
previously stored correct answers of the round). -/
theorem claim_C2_submit_points (parse : Str → Option (Str × Str))
    (g : GameState) (player : PlayerRec) (r : RoundRec)
    (ans : Str) (rt : ℚ) (hrt : 0 ≤ rt) :
    ((checkAnswer parse g.mode ans r.correctAnswer r.extraData).2 ≤ 0 →
      (submitAnswerService parse g player r ans rt).1.pointsEarned = 0) ∧
    (0 < (checkAnswer parse g.mode ans r.correctAnswer r.extraData).2 →
      (submitAnswerService parse g player r ans rt).1.pointsEarned =
        max 5 ⌊((max 10 (100 - ⌊rt * 3⌋) : ℤ) : ℚ) *
            (checkAnswer parse g.mode ans r.correctAnswer r.extraData).2⌋ +
          rankBonus (correctCountBefore g r)) := by
  constructor
  · intro hle
    have hfalse :
        (checkAnswer parse g.mode ans r.correctAnswer r.extraData).1 = false := by
      cases hc : (checkAnswer parse g.mode ans r.correctAnswer r.extraData).1
      · rfl
      · have := (checkAnswer_pos_iff parse g.mode ans r.correctAnswer
          r.extraData).mpr hc
        linarith
    simp [submitAnswerService, hfalse, calculateScore, hle]
  · intro hpos
    have htrue :=
      (checkAnswer_pos_iff parse g.mode ans r.correctAnswer r.extraData).mp hpos
    have hnle : ¬ (checkAnswer parse g.mode ans r.correctAnswer
        r.extraData).2 ≤ 0 := not_le.mpr hpos
    have hrt3 : (0:ℚ) ≤ rt * 3 := by positivity
    have hraw : (0:ℚ) ≤
        ((max 10 (100 - pyTrunc (rt * 3)) : ℤ) : ℚ) *
          (checkAnswer parse g.mode ans r.correctAnswer r.extraData).2 := by
      apply mul_nonneg
      · exact_mod_cast le_trans (by norm_num : (0:ℤ) ≤ 10) (le_max_left _ _)
      · exact le_of_lt hpos
    have hb : calculateScore
        (checkAnswer parse g.mode ans r.correctAnswer r.extraData).2 rt
        r.duration =
        max 5 ⌊((max 10 (100 - ⌊rt * 3⌋) : ℤ) : ℚ) *
          (checkAnswer parse g.mode ans r.correctAnswer r.extraData).2⌋ := by
      unfold calculateScore
      rw [if_neg hnle]
      dsimp only
      rw [pyTrunc_of_nonneg _ hraw, pyTrunc_of_nonneg _ hrt3]
    simp [submitAnswerService, htrue, hb]

/-- C2 witness: first correct MCQ answer at five seconds earns 95
points; an incorrect MCQ answer earns 0. -/
theorem claim_C2_submit_points_witness :
    ((0:ℚ) ≤ 5) ∧
    ((0 : ℚ) < (checkAnswer parseNoneW gameC2.mode ("Track A".toList)
        roundC2.correctAnswer roundC2.extraData).2 →
      (submitAnswerService parseNoneW gameC2 playerC2a roundC2
          ("Track A".toList) 5).1.pointsEarned =
        max 5 ⌊((max 10 (100 - ⌊(5:ℚ) * 3⌋) : ℤ) : ℚ) *
            (checkAnswer parseNoneW gameC2.mode ("Track A".toList)
              roundC2.correctAnswer roundC2.extraData).2⌋ +
          rankBonus (correctCountBefore gameC2 roundC2)) ∧
    (submitAnswerService parseNoneW gameC2 playerC2a roundC2
        ("Track A".toList) 5).1.pointsEarned = 95 ∧
    (submitAnswerService parseNoneW gameC2 playerC2b roundC2
        ("Track B".toList) 6).1.pointsEarned = 0 := by
  refine ⟨by norm_num,
    (claim_C2_submit_points parseNoneW gameC2 playerC2a roundC2
      ("Track A".toList) 5 (by norm_num)).2, ?_, ?_⟩
  · have hchk : checkAnswer parseNoneW gameC2.mode ("Track A".toList)
        roundC2.correctAnswer roundC2.extraData = (true, 1) := by decide
    have hcnt : correctCountBefore gameC2 roundC2 = 0 := by decide
    have hscore : calculateScore 1 5 30 = 85 := by
      unfold calculateScore pyTrunc
      norm_num [max_def]
    simp only [submitAnswerService, hchk, hcnt,
      show roundC2.duration = 30 from rfl]
    norm_num [hscore, rankBonus]
  · have hchk : checkAnswer parseNoneW gameC2.mode ("Track B".toList)
        roundC2.correctAnswer roundC2.extraData = (false, 0) := by decide
    have hscore : calculateScore 0 6 30 = 0 := by
      unfold calculateScore
      norm_num
    simp only [submitAnswerService, hchk,
      show roundC2.duration = 30 from rfl]
    norm_num [hscore]

/-! ### Claim C3 — year-guess tolerance bands -/

/-- C3: in year-guess mode, with `d = |given − correct|`: `d = 0` gives
`(correct, 1.0)`, `1 ≤ d ≤ 2` gives `(correct, 0.75)`, `3 ≤ d ≤ 5`
gives `(correct, 0.4)`, and `d ≥ 6` gives `(incorrect, 0.0)`. -/
theorem claim_C3_year_bands (parse : Str → Option (Str × Str))
    (extra : ExtraData) (ans corr : Str) (given correct : ℤ)
    (hg : pyParseInt ans = some given)
    (hc : pyParseInt corr = some correct) :
    (((given - correct).natAbs = 0 →
      checkAnswer parse .generation ans corr extra = (true, 1)) ∧
     (1 ≤ (given - correct).natAbs ∧ (given - correct).natAbs ≤ 2 →
      checkAnswer parse .generation ans corr extra = (true, 3/4)) ∧
     (3 ≤ (given - correct).natAbs ∧ (given - correct).natAbs ≤ 5 →
      checkAnswer parse .generation ans corr extra = (true, 2/5)) ∧
     (6 ≤ (given - correct).natAbs →
      checkAnswer parse .generation ans corr extra = (false, 0))) := by
  unfold checkAnswer
  simp only [hg, hc]
  refine ⟨?_, ?_, ?_, ?_⟩
  · intro h
    simp [h]
  · intro h
    have h0 : ¬ (given - correct).natAbs = 0 := by omega
    have h2 : (given - correct).natAbs ≤ 2 := h.2
    simp [h0, h2]
  · intro h
    have h0 : ¬ (given - correct).natAbs = 0 := by omega
    have h2 : ¬ (given - correct).natAbs ≤ 2 := by omega
    have h5 : (given - correct).natAbs ≤ 5 := h.2
    simp [h0, h2, h5]
  · intro h
    have h0 : ¬ (given - correct).natAbs = 0 := by omega
    have h2 : ¬ (given - correct).natAbs ≤ 2 := by omega
    have h5 : ¬ (given - correct).natAbs ≤ 5 := by omega
    simp [h0, h2, h5]

/-- C3 witness: guessing 1999 against 2005 (difference 6) is rejected
with factor 0. -/
theorem claim_C3_year_bands_witness :
    pyParseInt "1999".toList = some 1999 ∧
    pyParseInt "2005".toList = some 2005 ∧
    checkAnswer parseNoneW .generation "1999".toList "2005".toList
      extraGen = (false, 0) :=
  ⟨by decide, by decide,
   (claim_C3_year_bands parseNoneW extraGen "1999".toList "2005".toList
     1999 2005 (by decide) (by decide)).2.2.2 (by decide)⟩

/-! ### Claim C7 — free-text double guess for Classic/Fast -/

/-- C7: in free-text mode for Classic/Fast, a payload carrying both an
artist guess and a title guess scores `(true, 2.0)` when both fuzzy
match their targets at threshold 0.75, `(true, 1.0)` when exactly one
matches, and `(false, 0.0)` when neither does. -/
theorem claim_C7_classique_text_double (parse : Str → Option (Str × Str))
    (mode : GMode) (extra : ExtraData) (ans corr aG tG : Str)
    (hmode : mode = .classique ∨ mode = .rapide)
    (htext : extra.answerMode = .text)
    (hparse : parse ans = some (aG, tG))
    (ha : aG ≠ []) (ht : tG ≠ [])
    (hra : extra.artistName ≠ []) (hrt : extra.trackName ≠ []) :
    checkAnswer parse mode ans corr extra =
      (if (fuzzyMatch aG extra.artistName (3/4)).1 &&
          (fuzzyMatch tG extra.trackName (3/4)).1 then (true, 2)
       else if (fuzzyMatch aG extra.artistName (3/4)).1 ||
          (fuzzyMatch tG extra.trackName (3/4)).1 then (true, 1)
       else (false, 0)) := by
  have hng : mode ≠ GMode.generation := by
    rcases hmode with h | h <;> subst h <;> decide
  unfold checkAnswer checkClassiqueText
  rw [if_neg hng, if_pos htext, if_pos hmode]
  simp only [hparse]
  simp only [ha, hra, ht, hrt, ne_eq, not_false_iff, and_self, if_true]
  rcases hA : (fuzzyMatch aG extra.artistName (3/4)).1 with _ | _ <;>
    rcases hB : (fuzzyMatch tG extra.trackName (3/4)).1 with _ | _ <;>
    simp [hA, hB]

/-- C7 witness: both sub-guesses matching exactly yields the
double-points result `(true, 2.0)`. -/
theorem claim_C7_classique_text_double_witness :
    (GMode.classique = GMode.classique ∨ GMode.classique = GMode.rapide) ∧
    parseC7 ("payload".toList) = some ("Queen".toList, "Bohemian".toList) ∧
    checkAnswer parseC7 .classique ("payload".toList) ("x".toList)
        extraC7 =
      (if (fuzzyMatch ("Queen".toList) extraC7.artistName (3/4)).1 &&
          (fuzzyMatch ("Bohemian".toList) extraC7.trackName (3/4)).1
       then (true, 2)
       else if (fuzzyMatch ("Queen".toList) extraC7.artistName (3/4)).1 ||
          (fuzzyMatch ("Bohemian".toList) extraC7.trackName (3/4)).1
       then (true, 1)
       else (false, 0)) ∧
    checkAnswer parseC7 .classique ("payload".toList) ("x".toList)
        extraC7 = (true, 2) :=
  ⟨Or.inl rfl, rfl,
   claim_C7_classique_text_double parseC7 .classique extraC7
     ("payload".toList) ("x".toList) ("Queen".toList) ("Bohemian".toList)
     (Or.inl rfl) rfl rfl (by decide) (by decide) (by decide) (by decide),
   by decide⟩

/-! ### Claim C8 — pre-resolution payloads omit the correct answer -/

theorem serializeGameRound_no_key (r : RoundRec) (x : FieldVal) :
    ("correct_answer", x) ∉ serializeGameRound r := by
  simp [serializeGameRound]

/-- C8: the serialized round used for every pre-resolution payload has
no `correct_answer` key at all, and every `round_started` / `next_round`
event emitted by the start and next-round endpoints is key-safe. -/
theorem claim_C8_no_correct_answer_key :
    (∀ r : RoundRec,
      ("correct_answer" : String) ∉ (serializeGameRound r).map Prod.fst) ∧
    (∀ (g : GameState) (req : ℕ) (qs : List QuestionSpec) (now : ℕ),
      ((startEndpoint g req qs now).2.2).all eventKeysSafe = true) ∧
    (∀ (g : GameState) (req : ℕ) (ord : List PlayerRec) (now : ℕ),
      ((nextRoundEndpoint g req ord now).2.2).all eventKeysSafe = true) := by
  refine ⟨?_, ?_, ?_⟩
  · intro r
    simp [serializeGameRound]
  · intro g req qs now
    unfold startEndpoint
    split_ifs with h1 h2 h3 h4 <;> try rfl
    rcases hsv : startGameService g qs now with e | gr
    · rfl
    · rcases gr with ⟨g2, rounds⟩
      rcases rounds with _ | ⟨r0, rest⟩
      · rfl
      · simp [eventKeysSafe]
        exact fun x => serializeGameRound_no_key _ x
  · intro g req ord now
    unfold nextRoundEndpoint
    split_ifs with h1
    · rfl
    · cases hc : currentRound g with
      | none =>
        simp only [hc]
        cases hn : nextRoundQuery g with
        | none => rfl
        | some nxt =>
          simp [eventKeysSafe]
          exact fun x => serializeGameRound_no_key _ x
      | some cur =>
        simp only [hc]
        cases hn : nextRoundQuery (endRoundService g cur now) with
        | none => rfl
        | some nxt =>
          simp [eventKeysSafe]
          exact fun x => serializeGameRound_no_key _ x

/-! ### Claim C1 — duplicate answers are cleanly rejected -/

/-- C1: when a player who already has a stored answer for the current
round submits again, the endpoint returns a clean 400 rejection, the
state is unchanged (no second answer row, scores untouched) and nothing
is broadcast. -/
theorem claim_C1_duplicate_answer_rejected
    (parse : Str → Option (Str × Str)) (g : GameState) (uid : ℕ)
    (txt : Str) (rt : ℚ) (now : ℕ) (p : PlayerRec) (r : RoundRec)
    (hp : g.players.find? (fun q => q.userId == uid) = some p)
    (hcur : currentRound g = some r)
    (hdup : g.answers.any
      (fun a => a.roundId == r.id && a.playerId == p.id) = true) :
    answerEndpoint parse g uid txt rt now =
      (.badRequest msgAlreadyAnswered, g, []) := by
  unfold answerEndpoint
  simp only [hp, hcur, hdup, if_true]

/-- C1 witness: player 1 already answered round 1 of the scenario room;
a second submission is rejected and the room is left unchanged. -/
theorem claim_C1_duplicate_answer_rejected_witness :
    gameC1.players.find? (fun q => q.userId == 1) = some playerC2a ∧
    currentRound gameC1 = some roundC2 ∧
    gameC1.answers.any
      (fun a => a.roundId == roundC2.id && a.playerId == playerC2a.id)
      = true ∧
    answerEndpoint parseNoneW gameC1 1 ("Track A".toList) 3 9 =
      (.badRequest msgAlreadyAnswered, gameC1, []) :=
  ⟨by decide, by decide, by decide,
   claim_C1_duplicate_answer_rejected parseNoneW gameC1 1
     ("Track A".toList) 3 9 playerC2a roundC2
     (by decide) (by decide) (by decide)⟩

/-! ### Claim C10 — frame conditions of answer submission -/

/-- C10: a successful submission appends exactly one answer row, earns
a nonnegative number of points, adds exactly those points to the
submitting player's row (all other player rows are untouched), and
changes no round field, no timestamps and not the room status. -/
theorem claim_C10_submit_frame (parse : Str → Option (Str × Str))
    (g : GameState) (player : PlayerRec) (r : RoundRec) (ans : Str)
    (rt : ℚ) :
    (submitAnswerService parse g player r ans rt).2.answers =
      g.answers ++ [(submitAnswerService parse g player r ans rt).1] ∧
    0 ≤ (submitAnswerService parse g player r ans rt).1.pointsEarned ∧
    (submitAnswerService parse g player r ans rt).2.players =
      g.players.map (fun q =>
        if q.id = player.id then
          { q with score := q.score +
              (submitAnswerService parse g player r ans rt).1.pointsEarned }
        else q) ∧
    (submitAnswerService parse g player r ans rt).2.rounds = g.rounds ∧
    (submitAnswerService parse g player r ans rt).2.status = g.status ∧
    (submitAnswerService parse g player r ans rt).2.startedAt =
      g.startedAt ∧
    (submitAnswerService parse g player r ans rt).2.finishedAt =
      g.finishedAt ∧
    (submitAnswerService parse g player r ans rt).1.responseTime = rt := by
  refine ⟨rfl, ?_, rfl, rfl, rfl, rfl, rfl, rfl⟩
  have h1 := calculateScore_nonneg
    (checkAnswer parse g.mode ans r.correctAnswer r.extraData).2 rt
    r.duration
  have h2 : (0:ℤ) ≤
      (if (checkAnswer parse g.mode ans r.correctAnswer r.extraData).1
       then rankBonus (correctCountBefore g r) else 0) := by
    split_ifs
    · exact rankBonus_nonneg _
    · exact le_refl 0
  exact add_nonneg h1 h2

/-! ### Round query lemmas -/

theorem minByRound_mem {l : List RoundRec} {r : RoundRec}
    (h : minByRound l = some r) : r ∈ l := by
  induction l with
  | nil => simp [minByRound] at h
  | cons r0 rs ih =>
    unfold minByRound at h
    cases hm : minByRound rs with
    | none =>
      rw [hm] at h
      simp at h
      simp [h]
    | some m =>
      rw [hm] at h
      dsimp only at h
      split_ifs at h <;> simp at h
      · subst h
        exact List.mem_cons_self _ _
      · subst h
        exact List.mem_cons_of_mem _ (ih hm)

theorem currentRound_spec (g : GameState) (r : RoundRec)
    (h : currentRound g = some r) :
    r ∈ g.rounds ∧ r.startedAt.isSome = true ∧ r.endedAt = none := by
  unfold currentRound at h
  have hm := minByRound_mem h
  have hf := List.mem_filter.mp hm
  obtain ⟨h1, h2⟩ := hf
  rw [Bool.and_eq_true] at h2
  exact ⟨h1, h2.1, Option.isNone_iff_eq_none.mp h2.2⟩

theorem currentRound_endRound_none (g : GameState) (r : RoundRec)
    (now : ℕ) (_hcur : currentRound g = some r)
    (huniq : ∀ x ∈ g.rounds,
      x.startedAt.isSome = true → x.endedAt = none → x = r) :
    currentRound (endRoundService g r now) = none := by
  unfold currentRound endRoundService
  have hempty : (g.rounds.map fun x =>
      if x.id = r.id then { x with endedAt := some now } else x).filter
      (fun x => x.startedAt.isSome && x.endedAt.isNone) = [] := by
    rw [List.filter_eq_nil_iff]
    intro a ha
    obtain ⟨x, hx, hfx⟩ := List.mem_map.mp ha
    by_cases hid : x.id = r.id
    · rw [if_pos hid] at hfx
      rw [← hfx]
      simp
    · rw [if_neg hid] at hfx
      subst hfx
      intro hp
      rw [Bool.and_eq_true] at hp
      exact hid (congrArg RoundRec.id
        (huniq x hx hp.1 (Option.isNone_iff_eq_none.mp hp.2)))
  rw [hempty]
  rfl

/-! ### Claim C5 — ending a round twice -/

/-- C5 (amended): the first end-round call on the active round stamps
`ended_at`, returns the 200 response carrying the correct answer and
emits exactly one `round_ended` broadcast; a second call is rejected
with a clean 400 "no active round" error (not a success echoing the
results payload), changes nothing and emits nothing. -/
theorem claim_C5_end_round_amended (g : GameState) (r : RoundRec)
    (now now2 : ℕ) (hcur : currentRound g = some r)
    (huniq : ∀ x ∈ g.rounds,
      x.startedAt.isSome = true → x.endedAt = none → x = r) :
    endCurrentRoundEndpoint g g.hostId now =
      (.okEndRound r.correctAnswer, endRoundService g r now,
       [.roundEnded (buildRoundEndResults (endRoundService g r now)
         { r with endedAt := some now })]) ∧
    ({ r with endedAt := some now }) ∈ (endRoundService g r now).rounds ∧
    endCurrentRoundEndpoint (endRoundService g r now) g.hostId now2 =
      (.badRequest msgNoActive, endRoundService g r now, []) := by
  obtain ⟨hmem, hstart, hend⟩ := currentRound_spec g r hcur
  have hhost : ¬ (g.hostId ≠ g.hostId) := fun h => h rfl
  have hnone := currentRound_endRound_none g r now hcur huniq
  refine ⟨?_, ?_, ?_⟩
  · unfold endCurrentRoundEndpoint
    rw [if_neg hhost]
    simp only [hcur]
    rw [if_neg (by simp [hend])]
  · have hmm : (fun x =>
        if x.id = r.id then { x with endedAt := some now } else x) r ∈
        g.rounds.map (fun x =>
          if x.id = r.id then { x with endedAt := some now } else x) :=
      List.mem_map_of_mem _ hmem
    simp only [endRoundService]
    simpa using hmm
  · unfold endCurrentRoundEndpoint
    have hh : (endRoundService g r now).hostId = g.hostId := rfl
    rw [hh, if_neg hhost]
    simp only [hnone]

/-- C5 counterexample: after the scenario round is ended, a second
end-round call returns a 400 error rather than a success with the same
results payload. -/
theorem claim_C5_counterexample :
    (endCurrentRoundEndpoint
        (endCurrentRoundEndpoint gameC2 1 10).2.1 1 11).1 =
      .badRequest msgNoActive ∧
    ((endCurrentRoundEndpoint
        (endCurrentRoundEndpoint gameC2 1 10).2.1 1 11).1).isError
      = true := by
  refine ⟨by decide, by decide⟩

/-- C5 witness: the amended behavior on the scenario room. -/
theorem claim_C5_end_round_amended_witness :
    currentRound gameC2 = some roundC2 ∧
    (∀ x ∈ gameC2.rounds,
      x.startedAt.isSome = true → x.endedAt = none → x = roundC2) ∧
    endCurrentRoundEndpoint (endRoundService gameC2 roundC2 10)
        gameC2.hostId 11 =
      (.badRequest msgNoActive, endRoundService gameC2 roundC2 10, []) :=
  ⟨by decide, by decide,
   (claim_C5_end_round_amended gameC2 roundC2 10 11 (by decide)
     (by decide)).2.2⟩

/-! ### Claim C6 — starting outside Waiting -/

/-- C6 (amended): a Finished or Cancelled room (with enough players and
a track source) is refused with the invalid-state error and nothing
changes; an InProgress room is answered with HTTP 200 echoing the
existing rounds — not an error — and nothing changes; no non-Waiting
room is ever mutated by start. -/
theorem claim_C6_start_non_waiting (g : GameState)
    (qs : List QuestionSpec) (now : ℕ) :
    ((g.status = .finished ∨ g.status = .cancelled) →
      minPlayersFor g.mode ≤ g.players.length →
      (g.mode = .karaoke ∨ g.playlistId.isSome = true) →
      startEndpoint g g.hostId qs now =
        (.badRequest msgNotWaiting, g, [])) ∧
    (g.status = .inProgress →
      startEndpoint g g.hostId qs now =
        (.okStart g g.rounds.length
          ((minByRound g.rounds).map serializeGameRound), g, [])) ∧
    (g.status ≠ .waiting → (startEndpoint g g.hostId qs now).2.1 = g) := by
  have hhost : ¬ (g.hostId ≠ g.hostId) := fun h => h rfl
  refine ⟨?_, ?_, ?_⟩
  · intro hs hp hpl
    have h2 : ¬ g.status = GStatus.inProgress := by
      rcases hs with h | h <;> simp [h]
    have h3 : ¬ (g.players.length < minPlayersFor g.mode) :=
      not_lt.mpr hp
    have h4 : ¬ (g.mode ≠ GMode.karaoke ∧ g.playlistId.isNone = true) := by
      rintro ⟨hk, hn⟩
      rcases hpl with h | h
      · exact hk h
      · cases hq : g.playlistId with
        | none => rw [hq] at h; simp at h
        | some v => rw [hq] at hn; simp at hn
    have h5 : g.status ≠ GStatus.waiting := by
      rcases hs with h | h <;> simp [h]
    unfold startEndpoint
    rw [if_neg hhost, if_neg h2, if_neg h3, if_neg h4]
    unfold startGameService
    rw [if_pos h5]
  · intro hs
    unfold startEndpoint
    rw [if_neg hhost, if_pos hs]
  · intro hs
    unfold startEndpoint
    split_ifs with h1 h2 h3 h4 <;> try rfl
    unfold startGameService
    rw [if_pos hs]

/-- C6 counterexample: starting an InProgress (hence non-Waiting) room
succeeds with HTTP 200 — it is not rejected with an error. -/
theorem claim_C6_counterexample :
    gameC2.status ≠ GStatus.waiting ∧
    (startEndpoint gameC2 gameC2.hostId [] 7).1.isError = false := by
  refine ⟨by decide, by decide⟩

/-- C6 witness: the Finished scenario room is refused with the
invalid-state message and left unchanged. -/
theorem claim_C6_start_non_waiting_witness :
    (gameC6fin.status = .finished ∨ gameC6fin.status = .cancelled) ∧
    minPlayersFor gameC6fin.mode ≤ gameC6fin.players.length ∧
    (gameC6fin.mode = .karaoke ∨ gameC6fin.playlistId.isSome = true) ∧
    startEndpoint gameC6fin gameC6fin.hostId [] 4 =
      (.badRequest msgNotWaiting, gameC6fin, []) :=
  ⟨Or.inl rfl, by decide, by decide,
   (claim_C6_start_non_waiting gameC6fin [] 4).1 (Or.inl rfl)
     (by decide) (by decide)⟩

/-! ### Claim C4 — final ranking -/

theorem scoresSortedDesc_eq (l : List PlayerRec) :
    scoresSortedDesc l = sortedDescInt (l.map PlayerRec.score) := by
  induction l with
  | nil => rfl
  | cons p ps ih =>
    cases ps with
    | nil => rfl
    | cons q qs =>
      simp only [scoresSortedDesc, sortedDescInt, List.map_cons]
      rw [List.map_cons] at ih
      rw [ih]

/-- C4 (amended): finishing stamps `finished_at`, flips the status and
assigns ranks `1..N` in the order the database returned the players for
`order_by("-score")`: the ranks are a permutation of `1..N`, the rank
order follows scores descending, and the ranked rows are the room's
players — but ties keep whatever order the database produced, so the
tie-break is iteration order, not join time. -/
theorem claim_C4_finish_ranking_amended (g : GameState)
    (ord : List PlayerRec) (now : ℕ)
    (hperm : ord.Perm g.players) (hsort : scoresSortedDesc ord = true) :
    (finishGameService g ord now).finishedAt = some now ∧
    (finishGameService g ord now).status = .finished ∧
    (finishGameService g ord now).players.map PlayerRec.rank =
      (List.range g.players.length).map (fun i => some (i + 1)) ∧
    scoresSortedDesc (finishGameService g ord now).players = true ∧
    ((finishGameService g ord now).players.map PlayerRec.userId).Perm
      (g.players.map PlayerRec.userId) := by
  have hlen : ord.length = g.players.length := hperm.length_eq
  have hscores :
      (finishGameService g ord now).players.map PlayerRec.score =
        ord.map PlayerRec.score := by
    show (ord.enum.map _).map _ = _
    rw [List.map_map]
    have h2 : (PlayerRec.score ∘ fun ip : ℕ × PlayerRec =>
        { ip.2 with rank := some (ip.1 + 1) }) =
        PlayerRec.score ∘ Prod.snd := rfl
    rw [h2, ← List.map_map, List.enum_map_snd]
  have hids :
      (finishGameService g ord now).players.map PlayerRec.userId =
        ord.map PlayerRec.userId := by
    show (ord.enum.map _).map _ = _
    rw [List.map_map]
    have h2 : (PlayerRec.userId ∘ fun ip : ℕ × PlayerRec =>
        { ip.2 with rank := some (ip.1 + 1) }) =
        PlayerRec.userId ∘ Prod.snd := rfl
    rw [h2, ← List.map_map, List.enum_map_snd]
  refine ⟨rfl, rfl, ?_, ?_, ?_⟩
  · show (ord.enum.map _).map _ = _
    rw [List.map_map]
    have h2 : (PlayerRec.rank ∘ fun ip : ℕ × PlayerRec =>
        { ip.2 with rank := some (ip.1 + 1) }) =
        (fun i => some (i + 1)) ∘ Prod.fst := rfl
    rw [h2, ← List.map_map, List.enum_map_fst, hlen]
  · rw [scoresSortedDesc_eq, hscores, ← scoresSortedDesc_eq]
    exact hsort
  · rw [hids]
    exact hperm.map PlayerRec.userId

/-- C4 counterexample: two tied players; both DB orders are valid for
`order_by("-score")`, yet they assign rank 1 to different players and
the later joiner can be ranked first — the ranking is not determined by
score plus join time and re-running it on the same data need not be
idempotent. -/
theorem claim_C4_counterexample :
    scoresSortedDesc [p4a, p4b] = true ∧
    scoresSortedDesc [p4b, p4a] = true ∧
    ([p4a, p4b] : List PlayerRec).Perm gameC4.players ∧
    ([p4b, p4a] : List PlayerRec).Perm gameC4.players ∧
    p4a.joinedAt < p4b.joinedAt ∧
    p4a.score = p4b.score ∧
    ((finishGameService gameC4 [p4a, p4b] 9).players.find?
        (fun q => q.id == p4a.id)).map PlayerRec.rank = some (some 1) ∧
    ((finishGameService gameC4 [p4b, p4a] 9).players.find?
        (fun q => q.id == p4a.id)).map PlayerRec.rank = some (some 2) := by
  refine ⟨by decide, by decide, by decide, by decide, by decide,
    by decide, by decide, by decide⟩

/-- C4 witness: the amended ranking behavior on the tied-players room
with the join-order database order. -/
theorem claim_C4_finish_ranking_amended_witness :
    ([p4a, p4b] : List PlayerRec).Perm gameC4.players ∧
    scoresSortedDesc [p4a, p4b] = true ∧
    (finishGameService gameC4 [p4a, p4b] 9).players.map PlayerRec.rank =
      (List.range gameC4.players.length).map (fun i => some (i + 1)) :=
  ⟨by decide, by decide,
   (claim_C4_finish_ranking_amended gameC4 [p4a, p4b] 9 (by decide)
     (by decide)).2.2.1⟩

/-! ### Lemmas on whitespace tokenization (for C9) -/

theorem splitWsRaw_ne_nil (s : Str) : splitWsRaw s ≠ [] := by
  induction s with
  | nil => simp [splitWsRaw]
  | cons c cs ih =>
    show splitWsStep c (splitWsRaw cs) ≠ []
    unfold splitWsStep
    cases h : splitWsRaw cs with
    | nil => split_ifs <;> simp
    | cons t ts => split_ifs <;> simp

theorem mem_splitWsRaw_no_space (s : Str) :
    ∀ w ∈ splitWsRaw s, ∀ c ∈ w, isPySpace c = false := by
  induction s with
  | nil =>
    intro w hw c hc
    simp [splitWsRaw] at hw
    subst hw
    simp at hc
  | cons a as ih =>
    intro w hw c hc
    have hw' : w ∈ splitWsStep a (splitWsRaw as) := hw
    unfold splitWsStep at hw'
    cases h : splitWsRaw as with
    | nil => exact absurd h (splitWsRaw_ne_nil as)
    | cons t ts =>
      rw [h] at hw'
      dsimp only at hw'
      by_cases hsp : isPySpace a = true
      · rw [if_pos hsp] at hw'
        rcases List.mem_cons.mp hw' with h1 | h1
        · subst h1; simp at hc
        · exact ih w (by rw [h]; exact h1) c hc
      · rw [if_neg hsp] at hw'
        rcases List.mem_cons.mp hw' with h1 | h1
        · subst h1
          rcases List.mem_cons.mp hc with h2 | h2
          · subst h2
            simpa using hsp
          · exact ih t (by rw [h]; exact List.mem_cons_self t ts) c h2
        · exact ih w (by rw [h]; exact List.mem_cons_of_mem _ h1) c hc

theorem mem_wsTokens_no_space (s : Str) :
    ∀ w ∈ wsTokens s, ∀ c ∈ w, isPySpace c = false := by
  intro w hw
  exact mem_splitWsRaw_no_space s w (List.mem_of_mem_filter hw)

theorem foldr_splitWsStep_word (w t : Str) (ts : List Str)
    (hw : ∀ c ∈ w, isPySpace c = false) :
    w.foldr splitWsStep (t :: ts) = (w ++ t) :: ts := by
  induction w with
  | nil => rfl
  | cons a as ih =>
    have ha : isPySpace a = false := hw a (by simp)
    have ih' := ih (fun c hc => hw c (List.mem_cons_of_mem _ hc))
    show splitWsStep a (as.foldr splitWsStep (t :: ts)) = _
    rw [ih']
    unfold splitWsStep
    dsimp only
    rw [if_neg (by simp [ha])]
    rfl

theorem splitWsRaw_word_append (w s t : Str) (ts : List Str)
    (hw : ∀ c ∈ w, isPySpace c = false)
    (hs : splitWsRaw s = t :: ts) :
    splitWsRaw (w ++ s) = (w ++ t) :: ts := by
  unfold splitWsRaw at hs ⊢
  rw [List.foldr_append, hs]
  exact foldr_splitWsStep_word w t ts hw

theorem splitWsRaw_space_cons (s : Str) :
    splitWsRaw (' ' :: s) = [] :: splitWsRaw s := by
  obtain ⟨t, ts, hs⟩ : ∃ t ts, splitWsRaw s = t :: ts := by
    cases h : splitWsRaw s with
    | nil => exact absurd h (splitWsRaw_ne_nil s)
    | cons t ts => exact ⟨t, ts, rfl⟩
  show splitWsStep ' ' (splitWsRaw s) = [] :: splitWsRaw s
  rw [hs]
  rfl

theorem wsTokens_joinSpace (ws : List Str)
    (hws : ∀ w ∈ ws, ∀ c ∈ w, isPySpace c = false) :
    wsTokens (joinSpace ws) = ws.filter (fun w => w ≠ []) := by
  induction ws with
  | nil => rfl
  | cons w ws' ih =>
    cases ws' with
    | nil =>
      have hw : ∀ c ∈ w, isPySpace c = false := hws w (by simp)
      have h1 : splitWsRaw (w ++ []) = (w ++ []) :: [] :=
        splitWsRaw_word_append w [] [] [] hw rfl
      rw [List.append_nil] at h1
      show (splitWsRaw w).filter (fun t => t ≠ []) = _
      rw [h1]
    | cons w2 rest =>
      have hw : ∀ c ∈ w, isPySpace c = false := hws w (by simp)
      have hrec := ih (fun x hx => hws x (List.mem_cons_of_mem _ hx))
      obtain ⟨t, ts, hs⟩ : ∃ t ts,
          splitWsRaw (joinSpace (w2 :: rest)) = t :: ts := by
        cases h : splitWsRaw (joinSpace (w2 :: rest)) with
        | nil => exact absurd h (splitWsRaw_ne_nil _)
        | cons t ts => exact ⟨t, ts, rfl⟩
      have hsp : splitWsRaw (' ' :: joinSpace (w2 :: rest)) =
          [] :: t :: ts := by
        rw [splitWsRaw_space_cons, hs]
      have hfull : splitWsRaw (joinSpace (w :: w2 :: rest)) =
          (w ++ []) :: t :: ts := by
        show splitWsRaw (w ++ (' ' :: joinSpace (w2 :: rest))) = _
        exact splitWsRaw_word_append w _ [] (t :: ts) hw hsp
      rw [List.append_nil] at hfull
      have hJ : (t :: ts).filter (fun x => x ≠ []) =
          (w2 :: rest).filter (fun x => x ≠ []) := by
        have hws2 : wsTokens (joinSpace (w2 :: rest)) =
            (t :: ts).filter (fun x => x ≠ []) := by
          show (splitWsRaw (joinSpace (w2 :: rest))).filter _ = _
          rw [hs]
        rw [← hws2, hrec]
      show (splitWsRaw (joinSpace (w :: w2 :: rest))).filter
          (fun x => x ≠ []) = _
      rw [hfull]
      simp only [List.filter_cons, hJ]

/-! ### Lemmas on word cleaning and option deduplication (for C9) -/

theorem isAlphaApos_implies_phrase (c : Char)
    (h : isAlphaApos c = true) : isPhraseChar c = true := by
  unfold isAlphaApos at h
  unfold isPhraseChar
  rw [Bool.or_eq_true] at h
  rcases h with h1 | h1 <;> simp [h1]

theorem cleanSeqWord_cleanPhraseWord (w : Str) :
    cleanSeqWord (cleanPhraseWord w) = cleanSeqWord w := by
  unfold cleanSeqWord cleanPhraseWord
  congr 1
  rw [List.filter_filter]
  apply List.filter_congr
  intro c _
  cases h : isAlphaApos c with
  | false => simp
  | true => simp [isAlphaApos_implies_phrase c h]

theorem cleanPhraseWord_no_space (w : Str)
    (hw : ∀ c ∈ w, isPySpace c = false) :
    ∀ c ∈ cleanPhraseWord w, isPySpace c = false :=
  fun c hc => hw c (List.mem_of_mem_filter hc)

theorem dedupWrong_spec (z : Str) :
    ∀ (ws seen acc : List Str),
    (acc.map lowerStr).Nodup →
    (∀ a ∈ acc, lowerStr a ∈ seen) →
    z ∈ seen →
    (∀ a ∈ acc, lowerStr a ≠ z) →
    ((dedupWrong ws seen acc).map lowerStr).Nodup ∧
      (∀ a ∈ dedupWrong ws seen acc, lowerStr a ≠ z) := by
  intro ws
  induction ws with
  | nil =>
    intro seen acc h1 _ _ h4
    exact ⟨h1, h4⟩
  | cons w rest ih =>
    intro seen acc h1 h2 h3 h4
    unfold dedupWrong
    by_cases hc : seen.contains (lowerStr w) = true
    · rw [if_pos hc]
      split_ifs
      · exact ⟨h1, h4⟩
      · exact ih seen acc h1 h2 h3 h4
    · rw [if_neg hc]
      have hnotin : lowerStr w ∉ seen := by
        intro hm
        exact hc (List.elem_eq_true_of_mem hm)
      have h1' : ((acc ++ [w]).map lowerStr).Nodup := by
        rw [List.map_append]
        apply List.Nodup.append h1 (by simp)
        intro x hx hy
        simp at hy
        subst hy
        obtain ⟨a, ha, heq⟩ := List.mem_map.mp hx
        exact hnotin (heq ▸ h2 a ha)
      have h2' : ∀ a ∈ acc ++ [w],
          lowerStr a ∈ seen ++ [lowerStr w] := by
        intro a ha
        rcases List.mem_append.mp ha with h | h
        · exact List.mem_append_left _ (h2 a h)
        · simp at h
          subst h
          exact List.mem_append_right _ (by simp)
      have h3' : z ∈ seen ++ [lowerStr w] := List.mem_append_left _ h3
      have h4' : ∀ a ∈ acc ++ [w], lowerStr a ≠ z := by
        intro a ha
        rcases List.mem_append.mp ha with h | h
        · exact h4 a h
        · simp at h
          subst h
          intro heq
          exact hnotin (heq ▸ h3)
      dsimp only
      split_ifs
      · exact ⟨h1', h4'⟩
      · exact ih (seen ++ [lowerStr w]) (acc ++ [w]) h1' h2' h3' h4'

/-! ### Claim C9 — lyrics blank selection -/

theorem seqCandidates_mem {words : List Str} {wtb : ℕ}
    {c : ℕ × List Str} (h : c ∈ seqCandidates words wtb) :
    (∃ start, c = (start, (words.drop start).take wtb)) ∧
    (∀ w ∈ c.2,
      cleanSeqWord w ≠ [] ∧ isBoring (cleanSeqWord w) = false) := by
  unfold seqCandidates at h
  obtain ⟨start, hstart, heq⟩ := List.mem_filterMap.mp h
  dsimp only at heq
  by_cases h1 : (((words.drop start).take wtb).map cleanSeqWord).any
      (fun w => w.length < 1) = true
  · rw [if_pos h1] at heq; exact Option.noConfusion heq
  rw [if_neg h1] at heq
  by_cases h2 : (((words.drop start).take wtb).map cleanSeqWord).any
      (fun w => isBoring w) = true
  · rw [if_pos h2] at heq; exact Option.noConfusion heq
  rw [if_neg h2] at heq
  rw [Option.some_inj] at heq
  subst heq
  refine ⟨⟨start, rfl⟩, ?_⟩
  intro w hw
  constructor
  · intro hnil
    apply h1
    rw [List.any_eq_true]
    exact ⟨cleanSeqWord w, List.mem_map_of_mem _ hw, by simp [hnil]⟩
  · cases hb : isBoring (cleanSeqWord w) with
    | false => rfl
    | true =>
      exact absurd (by
        rw [List.any_eq_true]
        exact ⟨cleanSeqWord w, List.mem_map_of_mem _ hw, hb⟩) h2

theorem optsBuild_spec (shuffle : List Str → List Str)
    (hshuffle : ∀ l, (shuffle l).Perm l) (C : Str) (ws : List Str)
    (h3 : 3 ≤ (dedupWrong ws [lowerStr C] []).length) :
    (shuffle ([C] ++ (dedupWrong ws [lowerStr C] []).take 3)).length
      = 4 ∧
    ((shuffle ([C] ++ (dedupWrong ws [lowerStr C] []).take 3)).map
      lowerStr).Nodup ∧
    C ∈ shuffle ([C] ++ (dedupWrong ws [lowerStr C] []).take 3) := by
  obtain ⟨hn, hz⟩ := dedupWrong_spec (lowerStr C) ws [lowerStr C] []
    (by simp) (by simp) (by simp) (by simp)
  refine ⟨?_, ?_, ?_⟩
  · rw [(hshuffle _).length_eq]
    simp [List.length_take, Nat.min_eq_left h3]
  · rw [((hshuffle _).map lowerStr).nodup_iff]
    rw [List.map_append]
    simp only [List.map_cons, List.map_nil, List.singleton_append]
    rw [List.nodup_cons]
    constructor
    · intro hin
      obtain ⟨a, ha, heq⟩ := List.mem_map.mp hin
      exact hz a (List.mem_of_mem_take ha) heq
    · rw [List.map_take]
      exact List.Nodup.sublist (List.take_sublist _ _) hn
  · exact (hshuffle _).mem_iff.mpr
      (List.mem_append_left _ (List.mem_cons_self _ _))

theorem tryLine_spec (pick : List (ℕ × List Str) → ℕ × List Str)
    (shuffle : List Str → List Str)
    (hpick : ∀ l, l ≠ [] → pick l ∈ l)
    (hshuffle : ∀ l, (shuffle l).Perm l)
    (lyrics line : Str) (allW : Option (List Str)) (wtb : ℕ)
    (snippet correct : Str) (opts : List Str)
    (hq : tryLine pick shuffle lyrics allW wtb line =
      some (snippet, correct, opts)) :
    (∀ t ∈ wsTokens correct,
      cleanSeqWord t ≠ [] ∧ isBoring (cleanSeqWord t) = false) ∧
    opts.length = 4 ∧ (opts.map lowerStr).Nodup ∧ correct ∈ opts := by
  simp only [tryLine] at hq
  split_ifs at hq with hA hB hC
  rw [Option.some_inj] at hq
  injection hq with h1 h23
  injection h23 with h2 h3
  subst h2
  subst h3
  have hne : seqCandidates (wsTokens line) wtb ≠ [] := by
    intro hcontra
    exact hB (by rw [hcontra]; rfl)
  have hmem := hpick (seqCandidates (wsTokens line) wtb) hne
  obtain ⟨⟨start, hstart⟩, hprops⟩ := seqCandidates_mem hmem
  have hsub : ∀ w ∈ (pick (seqCandidates (wsTokens line) wtb)).2,
      w ∈ wsTokens line := by
    intro w hw
    have hw' : w ∈ ((wsTokens line).drop start).take wtb := by
      have := congrArg Prod.snd hstart
      dsimp at this
      rw [← this]
      exact hw
    exact ((List.take_sublist _ _).trans (List.drop_sublist _ _)).mem hw'
  have hspacefree : ∀ x ∈ (pick (seqCandidates (wsTokens line)
      wtb)).2.map cleanPhraseWord, ∀ ch ∈ x, isPySpace ch = false := by
    intro x hx
    obtain ⟨w, hw, hwx⟩ := List.mem_map.mp hx
    rw [← hwx]
    exact cleanPhraseWord_no_space w
      (mem_wsTokens_no_space line w (hsub w hw))
  have htok := wsTokens_joinSpace
    ((pick (seqCandidates (wsTokens line) wtb)).2.map cleanPhraseWord)
    hspacefree
  refine ⟨?_, ?_, ?_, ?_⟩
  · intro t ht
    rw [htok] at ht
    have htm := List.mem_of_mem_filter ht
    obtain ⟨w, hw, hwt⟩ := List.mem_map.mp htm
    have hp := hprops w hw
    rw [← hwt, cleanSeqWord_cleanPhraseWord]
    exact hp
  · exact (optsBuild_spec shuffle hshuffle _ _ (not_lt.mp hC)).1
  · exact (optsBuild_spec shuffle hshuffle _ _ (not_lt.mp hC)).2.1
  · exact (optsBuild_spec shuffle hshuffle _ _ (not_lt.mp hC)).2.2

/-- C9 (amended): whenever a lyrics question is produced — for any
legitimate `random.choice` / `random.shuffle` outcome — every token of
the blanked phrase is nonempty after stripping to letters and
apostrophes and none is stop-listed, and the produced option set has
exactly four entries, pairwise distinct case-insensitively, including
the correct phrase (so at least three distinct wrong phrases survived
deduplication).  A token may however consist solely of apostrophes:
only letters-and-apostrophe emptiness is rejected, not zero alphabetic
content. -/
theorem claim_C9_lyrics_blank_amended
    (pick : List (ℕ × List Str) → ℕ × List Str)
    (shuffle : List Str → List Str)
    (hpick : ∀ l, l ≠ [] → pick l ∈ l)
    (hshuffle : ∀ l, (shuffle l).Perm l)
    (lyrics : Str) (allW : Option (List Str)) (wtb : ℕ)
    (snippet correct : Str) (opts : List Str)
    (hq : createLyricsQuestion pick shuffle lyrics allW wtb =
      some (snippet, correct, opts)) :
    (∀ t ∈ wsTokens correct,
      cleanSeqWord t ≠ [] ∧ isBoring (cleanSeqWord t) = false) ∧
    opts.length = 4 ∧ (opts.map lowerStr).Nodup ∧ correct ∈ opts := by
  unfold createLyricsQuestion at hq
  obtain ⟨line, hline, htl⟩ := List.exists_of_findSome?_eq_some hq
  exact tryLine_spec pick shuffle hpick hshuffle lyrics line allW wtb
    snippet correct opts htl

theorem pickSecond_mem : ∀ l : List (ℕ × List Str),
    l ≠ [] → pickSecond l ∈ l := by
  intro l hl
  unfold pickSecond
  cases l with
  | nil => exact absurd rfl hl
  | cons a rest =>
    cases rest with
    | nil => simp
    | cons b rest2 => simp

theorem shuffleId_perm : ∀ l : List Str, (shuffleId l).Perm l :=
  fun l => List.Perm.refl l

/-- C9 counterexample: with a legitimate choice oracle, the question
built from `lyricsC9` blanks the phrase `''` — two apostrophes with
zero alphabetic content after punctuation-stripping — refuting the
claim that no token with zero alphabetic content is ever blanked. -/
theorem claim_C9_counterexample :
    (∀ l : List (ℕ × List Str), l ≠ [] → pickSecond l ∈ l) ∧
    (∀ l : List Str, (shuffleId l).Perm l) ∧
    createLyricsQuestion pickSecond shuffleId lyricsC9 (some wordsC9) 1
      = some (snippetC9, [apos, apos], optsC9) ∧
    ([apos, apos].filter isWordLetter).length = 0 :=
  ⟨pickSecond_mem, shuffleId_perm, by decide, by decide⟩

/-- C9 witness: the amended guarantees hold on the produced question of
the counterexample input. -/
theorem claim_C9_lyrics_blank_amended_witness :
    createLyricsQuestion pickSecond shuffleId lyricsC9 (some wordsC9) 1
      = some (snippetC9, [apos, apos], optsC9) ∧
    ((∀ t ∈ wsTokens [apos, apos],
        cleanSeqWord t ≠ [] ∧ isBoring (cleanSeqWord t) = false) ∧
      optsC9.length = 4 ∧ (optsC9.map lowerStr).Nodup ∧
      [apos, apos] ∈ optsC9) :=
  ⟨by decide,
   claim_C9_lyrics_blank_amended pickSecond shuffleId pickSecond_mem
     shuffleId_perm lyricsC9 (some wordsC9) 1 snippetC9 [apos, apos]
     optsC9 (by decide)⟩
